import Mathlib

set_option maxHeartbeats 1000000

/-!
Shallow embedding of the llc native-code-generation driver
(tools/llc/llc.cpp): output-name resolution, subtarget-feature assembly,
optimization-level parsing, pipeline construction, the two pipeline
execution strategies (whole-module and per-function), and the driver's
top-level control flow with its artifact-commit discipline.

Filenames and C strings are modelled as `List Char`; reading past the end
of a C string yields the NUL terminator, modelled by `getD` with default
`Char.ofNat 0`.
-/

/-- Host operating system as far as the driver distinguishes it: the only
test made is `OS == Triple::Win32` (llc.cpp line 170). -/
inductive OSType where
  | win32
  | other
deriving DecidableEq

/-- Requested output file kind (`TargetMachine::CodeGenFileType`). -/
inductive FileType where
  | assemblyFile
  | objectFile
  | nullFile
deriving DecidableEq

/-- Read character `i` of a C string; out-of-range reads the NUL
terminator. -/
def cchar (s : List Char) (i : Nat) : Char :=
  s.getD i (Char.ofNat 0)

/-- Suffix test of `GetFileNameRoot` (llc.cpp 136-139): length at least 3
and the last three characters are `.bc` or `.ll`. -/
def hasIRSuffix (ifn : List Char) : Bool :=
  let n := ifn.length
  decide (2 < n) && (ifn.getD (n - 3) (Char.ofNat 0) == '.') &&
    ((ifn.getD (n - 2) (Char.ofNat 0) == 'b' && ifn.getD (n - 1) (Char.ofNat 0) == 'c') ||
     (ifn.getD (n - 2) (Char.ofNat 0) == 'l' && ifn.getD (n - 1) (Char.ofNat 0) == 'l'))

/-- `GetFileNameRoot` (llc.cpp 131-145): strip a trailing `.bc` or `.ll`
from the input name, otherwise use it verbatim. -/
def GetFileNameRoot (ifn : List Char) : List Char :=
  if hasIRSuffix ifn then ifn.take (ifn.length - 3) else ifn

/-- Extension table of `GetOutputStream` (llc.cpp 157-178): for assembly,
`.cbe.c` when the backend name is exactly `c`, `.cpp` when it starts with
`cpp`, else `.s`; for object, `.obj` on Win32 and `.o` elsewhere; `.null`
for the null kind. -/
def extensionFor (ft : FileType) (targetName : List Char) (os : OSType) : List Char :=
  match ft with
  | .assemblyFile =>
    if cchar targetName 0 = 'c' then
      if cchar targetName 1 = Char.ofNat 0 then (".cbe.c").toList
      else if cchar targetName 1 = 'p' ∧ cchar targetName 2 = 'p' then (".cpp").toList
      else (".s").toList
    else (".s").toList
  | .objectFile => if os = OSType.win32 then (".obj").toList else (".o").toList
  | .nullFile => (".null").toList

/-- Binary-mode decision of `GetOutputStream` (llc.cpp 182-191). -/
def binaryFor (ft : FileType) : Bool :=
  match ft with
  | .assemblyFile => false
  | .objectFile => true
  | .nullFile => true

/-- Resolved output artifact: path (with `-` meaning standard output) and
binary-mode flag. -/
structure OutputSpec where
  path : List Char
  toStdout : Bool
  binary : Bool
deriving DecidableEq

/-- Name and mode resolution of `GetOutputStream` (llc.cpp 147-206): when no
explicit output name is given, input `-` maps to standard output and any
other input has its recognized suffix stripped and the table-driven
extension appended; an explicit output name is used as given. -/
def GetOutputStream (targetName : List Char) (os : OSType) (ft : FileType)
    (outputFilename inputFilename : List Char) : OutputSpec :=
  let name :=
    if outputFilename.isEmpty then
      if inputFilename = ['-'] then ['-']
      else GetFileNameRoot inputFilename ++ extensionFor ft targetName os
    else outputFilename
  { path := name, toStdout := name == ['-'], binary := binaryFor ft }

/-- A single subtarget-feature toggle (`+name` enables, `-name` disables). -/
inductive FeatureToggle where
  | enable (featureName : String)
  | disable (featureName : String)
deriving DecidableEq

/-- Feature name a toggle refers to. -/
def FeatureToggle.name : FeatureToggle → String
  | .enable n => n
  | .disable n => n

/-- Whether the toggle enables its feature. -/
def FeatureToggle.isEnable : FeatureToggle → Bool
  | .enable _ => true
  | .disable _ => false

/-- Modelled from the spec: resolution of one toggle against the current
feature set (later flags override earlier ones); the `SubtargetFeatures`
implementation is compiler-library code not present under src/. -/
def applyToggle (s : List String) : FeatureToggle → List String
  | .enable n => if s.contains n then s else s ++ [n]
  | .disable n => s.filter (fun m => !(m == n))

/-- Modelled from the spec: resolving an assembled toggle sequence into the
final feature set by applying the toggles in order, starting from the empty
set. -/
def resolveFeatures (ts : List FeatureToggle) : List String :=
  ts.foldl applyToggle []

/-- Feature-string assembly of `llc_main` (llc.cpp 380-392): the string
stays empty unless `-mattr` toggles were given; otherwise it is the
target's default toggles for the triple followed by the user toggles in the
order given. -/
def featuresFromAttrs (defaultToggles mattrs : List FeatureToggle) : List FeatureToggle :=
  if mattrs.isEmpty then [] else defaultToggles ++ mattrs

/-- `CodeGenOpt::Level`. -/
inductive CodeGenLevel where
  | None
  | Less
  | Default
  | Aggressive
deriving DecidableEq

/-- Optimization-level switch of `llc_main` (llc.cpp 394-404); `' '` is the
initial value of the `-O` option, meaning "not supplied", and maps to the
default level. -/
def parseOptLevel : Char → Option CodeGenLevel
  | ' ' => some CodeGenLevel.Default
  | '0' => some CodeGenLevel.None
  | '1' => some CodeGenLevel.Less
  | '2' => some CodeGenLevel.Default
  | '3' => some CodeGenLevel.Aggressive
  | _ => Option.none

/-- Immutable target description produced from the resolved inputs. -/
structure TargetDescriptor where
  triple : String
  cpu : String
  features : List String
  optLevel : CodeGenLevel
deriving DecidableEq

/-- Target-machine construction input (llc.cpp 430-433): triple, CPU, the
resolved feature set assembled from defaults and `-mattr` toggles, and the
optimization level. -/
def mkTargetDescriptor (triple cpu : String) (defaultToggles mattrs : List FeatureToggle)
    (lvl : CodeGenLevel) : TargetDescriptor :=
  ⟨triple, cpu, resolveFeatures (featuresFromAttrs defaultToggles mattrs), lvl⟩

/-- Source of the data-layout information added to the pipeline
(llc.cpp 482-486). -/
inductive DataLayoutSource where
  | fromTargetMachine
  | fromModule
deriving DecidableEq

/-- A stage of the assembled pipeline. Backend stages are opaque and
identified by position. -/
inductive Stage where
  | targetLibraryInfo (allFunctionsDisabled : Bool)
  | targetTransformInfo
  | dataLayout (layoutSrc : DataLayoutSource)
  | backend (idx : Nat)
deriving DecidableEq

/-- Pipeline assembly (llc.cpp 471-486 and 555-561): the
`TargetLibraryInfo` stage (all library functions disabled when
`-disable-simplify-libcalls` is set), the `TargetTransformInfo` stage, the
data layout (the target machine's when it has one, else the module's), then
the backend's own stages. -/
def buildPipeline (disableSimplifyLibCalls targetHasDataLayout : Bool)
    (backendStages : List Nat) : List Stage :=
  [Stage.targetLibraryInfo disableSimplifyLibCalls,
   Stage.targetTransformInfo,
   Stage.dataLayout
     (if targetHasDataLayout then DataLayoutSource.fromTargetMachine
      else DataLayoutSource.fromModule)]
    ++ backendStages.map Stage.backend

/-- Materialization state of a function: placeholder awaiting a streamed
body, resident body, or body discarded after compilation. -/
inductive MatState where
  | lazyB
  | residentB
  | dematB
deriving DecidableEq

/-- A module function: its (latent) body content and its materialization
state. -/
structure Func where
  body : Nat
  state : MatState
deriving DecidableEq

/-- Fetch the body, making the function resident. -/
def materialize (f : Func) : Func :=
  { f with state := MatState.residentB }

/-- `Function::Dematerialize`: discard the body, keep the placeholder. -/
def dematerialize (f : Func) : Func :=
  { f with state := MatState.dematB }

/-- Net effect of one per-function loop iteration on the function's state
(llc.cpp 570-573): the body is materialized for compilation and then
discarded again when `-reduce-memory-footprint` is set. -/
def stepFunc (rm : Bool) (f : Func) : Func :=
  if rm then dematerialize (materialize f) else materialize f

/-- The pass sequence, abstracted: initialization output, per-function
emission (a function of the function body alone), finalization output. -/
structure PassSeq where
  initOut : List Nat
  emit : Nat → List Nat
  finOut : List Nat

/-- Runner state: the module's function list and the bytes accumulated on
the output stream. -/
structure RunState where
  funcs : List Func
  out : List Nat
deriving DecidableEq

/-- One iteration of the per-function loop (llc.cpp 569-574): materialize
function `i`, run the pass sequence over it appending its emission to the
output stream, and dematerialize it when `rm` is set. -/
def runStep (P : PassSeq) (rm : Bool) (s : RunState) (i : Nat) : RunState :=
  match s.funcs[i]? with
  | Option.none => s
  | some f =>
    { funcs := s.funcs.set i (stepFunc rm f),
      out := s.out ++ P.emit (materialize f).body }

/-- Runner state after the first `k` iterations of the per-function loop
over the given module. -/
def runUpTo (P : PassSeq) (rm : Bool) (funcs : List Func) : Nat → RunState
  | 0 => ⟨funcs, []⟩
  | k + 1 => runStep P rm (runUpTo P rm funcs k) k

/-- `FunctionPassManager` execution (llc.cpp 566-575): `doInitialization`,
the per-function loop over every function in declaration order, then
`doFinalization`. -/
def runPerFunction (P : PassSeq) (rm : Bool) (funcs : List Func) : RunState :=
  let s := runUpTo P rm funcs funcs.length
  { funcs := s.funcs, out := P.initOut ++ s.out ++ P.finOut }

/-- Body of a function, available only while it is resident. -/
def bodyIfResident (f : Func) : Option Nat :=
  match f.state with
  | MatState.residentB => some f.body
  | _ => Option.none

/-- Bodies of a fully resident module, in declaration order; `Option.none`
when some function body is not resident. -/
def bodiesOf : List Func → Option (List Nat)
  | [] => some []
  | f :: t =>
    match bodyIfResident f, bodiesOf t with
    | some b, some bs => some (b :: bs)
    | _, _ => Option.none

/-- `PassManager::run` over the whole module (llc.cpp 577): requires every
function body to be resident and emits initialization output, each
function's emission in declaration order, and finalization output. -/
def runWholeModule (P : PassSeq) (funcs : List Func) : Option (List Nat) :=
  (bodiesOf funcs).map (fun bodies =>
    P.initOut ++ (bodies.map P.emit).flatten ++ P.finOut)

/-- The two execution strategies. -/
inductive Strategy where
  | wholeModule
  | perFunction
deriving DecidableEq

/-- Strategy selection (llc.cpp 464-468 and 566): per-function exactly when
streaming (`-streaming-bitcode`) or memory reduction
(`-reduce-memory-footprint`) is requested. -/
def selectStrategy (lazyBitcode reduceMemoryFootprint : Bool) : Strategy :=
  if lazyBitcode || reduceMemoryFootprint then Strategy.perFunction
  else Strategy.wholeModule

/-- Compiled-code output of a strategy run. -/
def runStrategy : Strategy → PassSeq → Bool → List Func → Option (List Nat)
  | Strategy.wholeModule, P, _, funcs => runWholeModule P funcs
  | Strategy.perFunction, P, rm, funcs => some (runPerFunction P rm funcs).out

/-- A module-level declaration as the stub extractor sees it. -/
structure DeclInfo where
  declName : String
  externallyVisible : Bool
deriving DecidableEq

/-- One metadata record: an external symbol or a library dependency. -/
inductive StubRecord where
  | symbol (recName : String)
  | libDep (recName : String)
deriving DecidableEq

/-- Modelled from the spec: `MakeAllStubs` (StubMaker, not under src/) —
one record per externally visible declaration in declaration order,
followed by one record per library-dependency entry. -/
def MakeAllStubs (decls : List DeclInfo) (libDeps : List String) : List StubRecord :=
  (decls.filter (fun d => d.externallyVisible)).map (fun d => StubRecord.symbol d.declName)
    ++ libDeps.map StubRecord.libDep

/-- Modelled from the spec: `WriteTextELFStub` (TextStubWriter, not under
src/) — deterministic one-line text rendering of a record. -/
def WriteTextELFStub : StubRecord → String
  | StubRecord.symbol n => "symbol " ++ n
  | StubRecord.libDep n => "needed " ++ n

/-- Modelled from the spec: `IntrinsicLowering::AddPrototypes` (compiler
library, not under src/) — insert any referenced intrinsic prototypes that
are missing from the module's declaration list. -/
def AddPrototypes (decls needed : List DeclInfo) : List DeclInfo :=
  decls ++ needed.filter (fun p => !((decls.map (fun d => d.declName)).contains p.declName))

/-- `WriteTextMetadataFile` (llc.cpp 228-255): build the stub list, render
each record to text, and write the blob to the metadata file, which is
committed on success; on an open failure the function reports the error and
returns nonzero. -/
def WriteTextMetadataFile (decls : List DeclInfo) (libDeps : List String)
    (metadataOpens : Bool) : Option (List String) :=
  let stubList := MakeAllStubs decls libDeps
  let s := stubList.map WriteTextELFStub
  if metadataOpens then some s else Option.none

/-- Observable driver actions, in the order they occur. -/
inductive DriverEvent where
  | openedOutput
  | ranPasses
  | keptOutput
  | addedPrototypes
  | wroteMetadata
  | keptMetadata
deriving DecidableEq

/-- One invocation's configuration: command-line options together with the
outcomes of the external interfaces the driver consumes (parsing, target
lookup, file opening, backend stage installation). -/
structure DriverConfig where
  inputFilename : List Char
  outputFilename : List Char
  metadataTextFilename : List Char
  optLevel : Char
  disableSimplifyLibCalls : Bool
  lazyBitcode : Bool
  reduceMemoryFootprint : Bool
  mattrs : List FeatureToggle
  defaultToggles : List FeatureToggle
  moduleParses : Bool
  targetFound : Bool
  targetName : List Char
  targetOS : OSType
  targetHasDataLayout : Bool
  fileType : FileType
  outputOpens : Bool
  startAfterOk : Bool
  stopAfterOk : Bool
  targetSupportsFileType : Bool
  backendStages : List Nat
  moduleDecls : List DeclInfo
  neededPrototypes : List DeclInfo
  libDeps : List String
  metadataOpens : Bool
deriving DecidableEq

/-- Outcome of one invocation: exit code, commit state of the two
artifacts, the assembled pipeline, the metadata lines written, and the
event trace. -/
structure DriverResult where
  exitCode : Nat
  codeCommitted : Bool
  metadataCommitted : Bool
  pipeline : List Stage
  metadataLines : List String
  events : List DriverEvent
deriving DecidableEq

/-- Control flow of `llc_main` (llc.cpp 261-603, regular build): parse the
module, look up the target, assemble features, parse the optimization
level, open the output, build the pipeline, install the backend stages, run
the passes, commit the compiled-code artifact, and finally — when requested
— add intrinsic prototypes and write the metadata artifact. Each failure
exits with code 1 at its check. -/
def llc_main (c : DriverConfig) : DriverResult :=
  if c.moduleParses = false then ⟨1, false, false, [], [], []⟩
  else if c.targetFound = false then ⟨1, false, false, [], [], []⟩
  else
    match parseOptLevel c.optLevel with
    | Option.none => ⟨1, false, false, [], [], []⟩
    | some _ =>
      if c.outputOpens = false then ⟨1, false, false, [], [], []⟩
      else
        let basePl : List Stage :=
          [Stage.targetLibraryInfo c.disableSimplifyLibCalls,
           Stage.targetTransformInfo,
           Stage.dataLayout
             (if c.targetHasDataLayout then DataLayoutSource.fromTargetMachine
              else DataLayoutSource.fromModule)]
        if c.startAfterOk = false then ⟨1, false, false, basePl, [], [DriverEvent.openedOutput]⟩
        else if c.stopAfterOk = false then ⟨1, false, false, basePl, [], [DriverEvent.openedOutput]⟩
        else if c.targetSupportsFileType = false then
          ⟨1, false, false, basePl, [], [DriverEvent.openedOutput]⟩
        else
          let pl := buildPipeline c.disableSimplifyLibCalls c.targetHasDataLayout c.backendStages
          let evts := [DriverEvent.openedOutput, DriverEvent.ranPasses, DriverEvent.keptOutput]
          if c.metadataTextFilename.isEmpty then ⟨0, true, false, pl, [], evts⟩
          else
            match WriteTextMetadataFile (AddPrototypes c.moduleDecls c.neededPrototypes)
                c.libDeps c.metadataOpens with
            | Option.none =>
              ⟨1, true, false, pl, [], evts ++ [DriverEvent.addedPrototypes]⟩
            | some lines =>
              ⟨0, true, true, pl, lines,
               evts ++ [DriverEvent.addedPrototypes, DriverEvent.wroteMetadata,
                        DriverEvent.keptMetadata]⟩

/-- A concrete pass sequence used for evaluating the runner theorems. -/
def samplePasses : PassSeq :=
  { initOut := [90], emit := fun b => [b, b + 1], finOut := [91] }

/-- A concrete fully resident two-function module. -/
def sampleFuncs : List Func :=
  [{ body := 3, state := MatState.residentB }, { body := 4, state := MatState.residentB }]

/-- A concrete invocation in which every external interface succeeds and a
metadata artifact is requested. -/
def sampleOkConfig : DriverConfig :=
  { inputFilename := ("add.ll").toList
    outputFilename := []
    metadataTextFilename := ("deps.txt").toList
    optLevel := '2'
    disableSimplifyLibCalls := false
    lazyBitcode := false
    reduceMemoryFootprint := false
    mattrs := []
    defaultToggles := []
    moduleParses := true
    targetFound := true
    targetName := ("x86-64").toList
    targetOS := OSType.other
    targetHasDataLayout := true
    fileType := FileType.assemblyFile
    outputOpens := true
    startAfterOk := true
    stopAfterOk := true
    targetSupportsFileType := true
    backendStages := [0, 1]
    moduleDecls := [{ declName := "add", externallyVisible := true },
                    { declName := "helper", externallyVisible := false }]
    neededPrototypes := [{ declName := "llvm.memcpy", externallyVisible := true }]
    libDeps := ["libm"]
    metadataOpens := true }

/-- Same invocation except that the metadata file fails to open. -/
def sampleMetaFailConfig : DriverConfig :=
  { sampleOkConfig with metadataOpens := false }

/-- Same invocation except that the target triple resolves to no backend. -/
def sampleNoTargetConfig : DriverConfig :=
  { sampleOkConfig with targetFound := false }

/-- Same invocation except that an invalid `-O9` was supplied. -/
def sampleBadOptConfig : DriverConfig :=
  { sampleOkConfig with optLevel := '9' }

/-- Same invocation except that the target declines the requested output
file kind. -/
def sampleNoSupportConfig : DriverConfig :=
  { sampleOkConfig with targetSupportsFileType := false }

/-- getD over an append, indexed past the first list. -/
theorem getD_append_add (l₁ l₂ : List Char) (k : Nat) (d : Char) :
    (l₁ ++ l₂).getD (l₁.length + k) d = l₂.getD k d := by
  rw [List.getD_append_right l₁ l₂ d _ (Nat.le_add_right _ _), Nat.add_sub_cancel_left]

/-- Setting the element at the boundary of an append rewrites the head of
the right list. -/
theorem set_append_eq (A : List Func) (b x : Func) (B : List Func) (k : Nat)
    (h : A.length = k) : (A ++ b :: B).set k x = A ++ x :: B := by
  subst h
  induction A with
  | nil => rfl
  | cons a t ih =>
    show a :: ((t ++ b :: B).set t.length x) = a :: (t ++ x :: B)
    rw [ih]

/-- Module state after `k` iterations of the per-function loop: the first
`k` functions have been materialized, compiled, and (under memory
reduction) dematerialized; the rest are untouched. -/
theorem runUpTo_funcs (P : PassSeq) (rm : Bool) (funcs : List Func) (k : Nat) :
    (runUpTo P rm funcs k).funcs = (funcs.take k).map (stepFunc rm) ++ funcs.drop k := by
  induction k with
  | zero => simp [runUpTo]
  | succ k ih =>
    show (runStep P rm (runUpTo P rm funcs k) k).funcs = _
    by_cases hk : k < funcs.length
    · have hlenpre : ((funcs.take k).map (stepFunc rm)).length = k := by
        simp [Nat.min_eq_left (Nat.le_of_lt hk)]
      have hget : (runUpTo P rm funcs k).funcs[k]? = some funcs[k] := by
        rw [ih, List.getElem?_append_right (le_of_eq hlenpre), hlenpre, Nat.sub_self,
          List.getElem?_drop, Nat.add_zero, List.getElem?_eq_getElem hk]
      simp only [runStep, hget]
      rw [ih, List.drop_eq_getElem_cons hk,
        set_append_eq _ _ _ _ _ hlenpre,
        ← List.take_concat_get' funcs k hk, List.map_append]
      simp
    · have hnone : (runUpTo P rm funcs k).funcs[k]? = Option.none := by
        rw [ih]
        refine List.getElem?_eq_none ?_
        simp only [List.length_append, List.length_map, List.length_take, List.length_drop]
        omega
      simp only [runStep, hnone]
      rw [ih, List.take_of_length_le (Nat.le_of_not_lt hk),
        List.take_of_length_le (Nat.le_succ_of_le (Nat.le_of_not_lt hk)),
        List.drop_eq_nil_of_le (Nat.le_of_not_lt hk),
        List.drop_eq_nil_of_le (Nat.le_succ_of_le (Nat.le_of_not_lt hk))]

/-- Output accumulated after `k` iterations of the per-function loop: each
processed function contributed the emission of its own body, in order. -/
theorem runUpTo_out (P : PassSeq) (rm : Bool) (funcs : List Func) (k : Nat) :
    (runUpTo P rm funcs k).out = ((funcs.take k).map (fun f => P.emit f.body)).flatten := by
  induction k with
  | zero => simp [runUpTo]
  | succ k ih =>
    show (runStep P rm (runUpTo P rm funcs k) k).out = _
    by_cases hk : k < funcs.length
    · have hlenpre : ((funcs.take k).map (stepFunc rm)).length = k := by
        simp [Nat.min_eq_left (Nat.le_of_lt hk)]
      have hget : (runUpTo P rm funcs k).funcs[k]? = some funcs[k] := by
        rw [runUpTo_funcs, List.getElem?_append_right (le_of_eq hlenpre), hlenpre,
          Nat.sub_self, List.getElem?_drop, Nat.add_zero, List.getElem?_eq_getElem hk]
      simp only [runStep, hget]
      rw [ih, ← List.take_concat_get' funcs k hk, List.map_append]
      simp [materialize]
    · have hnone : (runUpTo P rm funcs k).funcs[k]? = Option.none := by
        rw [runUpTo_funcs]
        refine List.getElem?_eq_none ?_
        simp only [List.length_append, List.length_map, List.length_take, List.length_drop]
        omega
      simp only [runStep, hnone]
      rw [ih, List.take_of_length_le (Nat.le_of_not_lt hk),
        List.take_of_length_le (Nat.le_succ_of_le (Nat.le_of_not_lt hk))]

/-- On a fully resident module, the bodies are exactly the `body` fields in
declaration order. -/
theorem bodiesOf_resident (funcs : List Func)
    (h : ∀ f ∈ funcs, f.state = MatState.residentB) :
    bodiesOf funcs = some (funcs.map Func.body) := by
  induction funcs with
  | nil => rfl
  | cons f t ih =>
    have hf : bodyIfResident f = some f.body := by
      simp [bodyIfResident, h f (List.mem_cons_self _ _)]
    rw [bodiesOf, hf, ih (fun g hg => h g (List.mem_cons_of_mem _ hg))]
    rfl

/-- A toggle for a different feature does not change whether `f` is in the
set. -/
theorem mem_applyToggle_of_ne (s : List String) (u : FeatureToggle) (f : String)
    (h : FeatureToggle.name u ≠ f) : f ∈ applyToggle s u ↔ f ∈ s := by
  cases u with
  | enable n =>
    have hfn : f ≠ n := fun hfn => h (by simp [FeatureToggle.name, hfn])
    by_cases hm : n ∈ s
    · simp [applyToggle, hm]
    · simp [applyToggle, hm, hfn]
  | disable n =>
    have hfn : (f == n) = false := by
      refine beq_eq_false_iff_ne.mpr ?_
      exact fun hfn => h (by simp [FeatureToggle.name, hfn])
    simp [applyToggle, List.mem_filter, hfn]

/-- A run of toggles none of which mentions `f` leaves membership of `f`
unchanged. -/
theorem mem_foldl_applyToggle_of_ne (l : List FeatureToggle) (s : List String) (f : String)
    (h : ∀ u ∈ l, FeatureToggle.name u ≠ f) :
    f ∈ l.foldl applyToggle s ↔ f ∈ s := by
  induction l generalizing s with
  | nil => simp
  | cons u tl ih =>
    rw [List.foldl_cons, ih _ (fun v hv => h v (List.mem_cons_of_mem _ hv))]
    exact mem_applyToggle_of_ne s u f (h u (List.mem_cons_self _ _))

/-- Enabling a feature puts it in the set. -/
theorem mem_applyToggle_enable (s : List String) (n : String) :
    n ∈ applyToggle s (FeatureToggle.enable n) := by
  by_cases hm : n ∈ s
  · simp [applyToggle, hm]
  · simp [applyToggle, hm]

/-- Disabling a feature removes it from the set. -/
theorem not_mem_applyToggle_disable (s : List String) (n : String) :
    n ∉ applyToggle s (FeatureToggle.disable n) := by
  simp [applyToggle, List.mem_filter]

/-- Applying the same toggle twice in a row is the same as applying it
once. -/
theorem applyToggle_idem (s : List String) (t : FeatureToggle) :
    applyToggle (applyToggle s t) t = applyToggle s t := by
  cases t with
  | enable n =>
    by_cases hm : n ∈ s
    · simp [applyToggle, hm]
    · simp [applyToggle, hm]
  | disable n =>
    simp only [applyToggle]
    induction s with
    | nil => rfl
    | cons a tl ih =>
      by_cases ha : (a == n) = true
      · simp [List.filter_cons, ha, ih]
      · have ha' : (!(a == n)) = true := by simp [ha]
        simp [List.filter_cons, ha', ih]

/-- A nonempty `-mattr` list makes the assembled toggle sequence the
defaults followed by the user toggles. -/
theorem featuresFromAttrs_of_ne (dts mattrs : List FeatureToggle) (h : mattrs ≠ []) :
    featuresFromAttrs dts mattrs = dts ++ mattrs := by
  cases mattrs with
  | nil => exact absurd rfl h
  | cons a tl => rfl

/-- When the target lookup fails, the driver exits with code 1 having
performed no observable action and committed nothing. -/
theorem llc_main_noTarget (c : DriverConfig) (h : c.targetFound = false) :
    llc_main c = ⟨1, false, false, [], [], []⟩ := by
  by_cases h1 : c.moduleParses = false
  · simp [llc_main, h1]
  · simp [llc_main, h1, h]

/-- When the optimization level does not parse, the driver exits with code
1 having performed no observable action and committed nothing. -/
theorem llc_main_badOpt (c : DriverConfig) (h : parseOptLevel c.optLevel = Option.none) :
    llc_main c = ⟨1, false, false, [], [], []⟩ := by
  by_cases h1 : c.moduleParses = false
  · simp [llc_main, h1]
  · by_cases h2 : c.targetFound = false
    · simp [llc_main, h1, h2]
    · simp [llc_main, h1, h2, h]

/-- The five possible outcomes of an invocation: failure before the output
is opened, failure after it is opened but before passes run, success
without a metadata request, a metadata-open failure after the compiled-code
artifact was already committed, and full success. -/
theorem llc_main_shape (c : DriverConfig) :
    llc_main c = ⟨1, false, false, [], [], []⟩
    ∨ ((llc_main c).exitCode = 1 ∧ (llc_main c).codeCommitted = false
        ∧ (llc_main c).metadataCommitted = false
        ∧ (llc_main c).events = [DriverEvent.openedOutput])
    ∨ ((llc_main c).exitCode = 0 ∧ (llc_main c).codeCommitted = true
        ∧ (llc_main c).metadataCommitted = false
        ∧ (llc_main c).events
            = [DriverEvent.openedOutput, DriverEvent.ranPasses, DriverEvent.keptOutput]
        ∧ c.targetSupportsFileType = true ∧ c.metadataTextFilename.isEmpty = true)
    ∨ ((llc_main c).exitCode = 1 ∧ (llc_main c).codeCommitted = true
        ∧ (llc_main c).metadataCommitted = false
        ∧ (llc_main c).events
            = [DriverEvent.openedOutput, DriverEvent.ranPasses, DriverEvent.keptOutput,
               DriverEvent.addedPrototypes]
        ∧ c.targetSupportsFileType = true ∧ c.metadataTextFilename.isEmpty = false
        ∧ c.metadataOpens = false)
    ∨ ((llc_main c).exitCode = 0 ∧ (llc_main c).codeCommitted = true
        ∧ (llc_main c).metadataCommitted = true
        ∧ (llc_main c).events
            = [DriverEvent.openedOutput, DriverEvent.ranPasses, DriverEvent.keptOutput,
               DriverEvent.addedPrototypes, DriverEvent.wroteMetadata,
               DriverEvent.keptMetadata]
        ∧ c.targetSupportsFileType = true ∧ c.metadataTextFilename.isEmpty = false
        ∧ c.metadataOpens = true) := by
  by_cases h1 : c.moduleParses = false
  · exact Or.inl (by simp [llc_main, h1])
  · by_cases h2 : c.targetFound = false
    · exact Or.inl (by simp [llc_main, h1, h2])
    · rcases hpo : parseOptLevel c.optLevel with _ | lvl
      · exact Or.inl (by simp [llc_main, h1, h2, hpo])
      · by_cases h4 : c.outputOpens = false
        · exact Or.inl (by simp [llc_main, h1, h2, hpo, h4])
        · by_cases h5 : c.startAfterOk = false
          · refine Or.inr (Or.inl ?_)
            simp [llc_main, h1, h2, hpo, h4, h5]
          · by_cases h6 : c.stopAfterOk = false
            · refine Or.inr (Or.inl ?_)
              simp [llc_main, h1, h2, hpo, h4, h5, h6]
            · by_cases h7 : c.targetSupportsFileType = false
              · refine Or.inr (Or.inl ?_)
                simp [llc_main, h1, h2, hpo, h4, h5, h6, h7]
              · have h7' : c.targetSupportsFileType = true := by
                  simpa using h7
                by_cases h8 : c.metadataTextFilename.isEmpty
                · refine Or.inr (Or.inr (Or.inl ?_))
                  simp [llc_main, h1, h2, hpo, h4, h5, h6, h7, h7', h8]
                · have h8' : c.metadataTextFilename.isEmpty = false := by
                    simpa using h8
                  by_cases h9 : c.metadataOpens
                  · refine Or.inr (Or.inr (Or.inr (Or.inr ?_)))
                    simp [llc_main, WriteTextMetadataFile, h1, h2, hpo, h4, h5, h6, h7,
                      h7', h8, h8', h9]
                  · refine Or.inr (Or.inr (Or.inr (Or.inl ?_)))
                    have h9' : c.metadataOpens = false := by simpa using h9
                    simp [llc_main, WriteTextMetadataFile, h1, h2, hpo, h4, h5, h6, h7,
                      h7', h8, h8', h9, h9']

/-- Appending a recognized three-character suffix is detected by the suffix
test. -/
theorem hasIRSuffix_append (base : List Char) (c1 c2 c3 : Char)
    (hdot : c1 = '.') (hsuf : (c2 = 'b' ∧ c3 = 'c') ∨ (c2 = 'l' ∧ c3 = 'l')) :
    hasIRSuffix (base ++ [c1, c2, c3]) = true := by
  have hlen : (base ++ [c1, c2, c3]).length = base.length + 3 := by simp
  have h3 : base.length + 3 - 3 = base.length + 0 := by omega
  have h2 : base.length + 3 - 2 = base.length + 1 := by omega
  have h1 : base.length + 3 - 1 = base.length + 2 := by omega
  simp only [hasIRSuffix, hlen, h3, h2, h1, getD_append_add]
  simp only [List.getD, List.getElem?_cons_zero, List.getElem?_cons_succ,
    Option.getD_some, Bool.and_eq_true, Bool.or_eq_true, beq_iff_eq,
    decide_eq_true_eq]
  refine ⟨⟨by omega, hdot⟩, ?_⟩
  rcases hsuf with ⟨hb, hc⟩ | ⟨hl, hl2⟩
  · exact Or.inl ⟨hb, hc⟩
  · exact Or.inr ⟨hl, hl2⟩

/-- Stripping a recognized three-character suffix recovers the base name. -/
theorem GetFileNameRoot_append (base : List Char) (c1 c2 c3 : Char)
    (hdot : c1 = '.') (hsuf : (c2 = 'b' ∧ c3 = 'c') ∨ (c2 = 'l' ∧ c3 = 'l')) :
    GetFileNameRoot (base ++ [c1, c2, c3]) = base := by
  have hs := hasIRSuffix_append base c1 c2 c3 hdot hsuf
  have hlen : (base ++ [c1, c2, c3]).length = base.length + 3 := by simp
  have h3 : base.length + 3 - 3 = base.length := by omega
  rw [GetFileNameRoot, if_pos hs, hlen, h3, List.take_left]

/-- C4: with no explicit output name and an input other than `-`, the
output name is the input with a trailing `.bc` or `.ll` stripped (verbatim
otherwise) followed by the table-driven extension (`.cbe.c` for assembly
when the backend is exactly `c`, `.cpp` when it starts with `cpp`, `.s`
otherwise; `.obj` for object on Windows, `.o` elsewhere; `.null` for the
null kind); the binary-mode flag holds exactly for the Object and Null
kinds; and input `-` resolves to standard output. -/
theorem output_name_resolution :
    (∀ base : List Char, GetFileNameRoot (base ++ (".bc").toList) = base) ∧
    (∀ base : List Char, GetFileNameRoot (base ++ (".ll").toList) = base) ∧
    (∀ ifn : List Char, hasIRSuffix ifn = false → GetFileNameRoot ifn = ifn) ∧
    (∀ tn os ft (ifn : List Char), ifn ≠ ['-'] →
      (GetOutputStream tn os ft [] ifn).path
        = GetFileNameRoot ifn ++ extensionFor ft tn os) ∧
    (∀ tn os ft (ofn ifn : List Char),
      (GetOutputStream tn os ft ofn ifn).binary = binaryFor ft) ∧
    (binaryFor FileType.objectFile = true ∧ binaryFor FileType.nullFile = true ∧
      binaryFor FileType.assemblyFile = false) ∧
    (∀ os, extensionFor FileType.assemblyFile ['c'] os = (".cbe.c").toList) ∧
    (∀ os rest, extensionFor FileType.assemblyFile ('c' :: 'p' :: 'p' :: rest) os
      = (".cpp").toList) ∧
    (∀ os tn, cchar tn 0 ≠ 'c' →
      extensionFor FileType.assemblyFile tn os = (".s").toList) ∧
    (∀ os tn, cchar tn 0 = 'c' → cchar tn 1 ≠ Char.ofNat 0 →
      ¬(cchar tn 1 = 'p' ∧ cchar tn 2 = 'p') →
      extensionFor FileType.assemblyFile tn os = (".s").toList) ∧
    (∀ tn, extensionFor FileType.objectFile tn OSType.win32 = (".obj").toList) ∧
    (∀ tn, extensionFor FileType.objectFile tn OSType.other = (".o").toList) ∧
    (∀ tn os, extensionFor FileType.nullFile tn os = (".null").toList) ∧
    (∀ tn os ft, (GetOutputStream tn os ft [] ['-']).path = ['-'] ∧
      (GetOutputStream tn os ft [] ['-']).toStdout = true) := by
  refine ⟨?_, ?_, ?_, ?_, ?_, ⟨rfl, rfl, rfl⟩, ?_, ?_, ?_, ?_, ?_, ?_, ?_, ?_⟩
  · exact fun base => GetFileNameRoot_append base '.' 'b' 'c' rfl (Or.inl ⟨rfl, rfl⟩)
  · exact fun base => GetFileNameRoot_append base '.' 'l' 'l' rfl (Or.inr ⟨rfl, rfl⟩)
  · intro ifn h
    simp [GetFileNameRoot, h]
  · intro tn os ft ifn h
    simp [GetOutputStream, h]
  · intro tn os ft ofn ifn
    rfl
  · intro os
    rfl
  · intro os rest
    rfl
  · intro os tn h
    simp [extensionFor, h]
  · intro os tn h0 h1 h2
    simp [extensionFor, h0, h1, h2]
  · intro tn
    rfl
  · intro tn
    rfl
  · intro tn os
    rfl
  · intro tn os ft
    exact ⟨rfl, rfl⟩

/-- C4 witness: concrete evaluations of the resolver. -/
theorem output_name_resolution_witness :
    GetFileNameRoot (("foo.bc").toList) = ("foo").toList ∧
    GetFileNameRoot (("foo.ll").toList) = ("foo").toList ∧
    GetFileNameRoot (("bar.txt").toList) = ("bar.txt").toList ∧
    (GetOutputStream (("x86-64").toList) OSType.other FileType.assemblyFile []
      (("foo.bc").toList)).path = ("foo.s").toList ∧
    extensionFor FileType.assemblyFile (("cpp64").toList) OSType.win32 = (".cpp").toList ∧
    extensionFor FileType.assemblyFile (("x86-64").toList) OSType.other = (".s").toList ∧
    extensionFor FileType.assemblyFile (("cortex").toList) OSType.other = (".s").toList := by
  have h := output_name_resolution
  refine ⟨h.1 (("foo").toList), h.2.1 (("foo").toList),
    h.2.2.1 (("bar.txt").toList) (by decide),
    h.2.2.2.1 (("x86-64").toList) OSType.other FileType.assemblyFile
      (("foo.bc").toList) (by decide),
    h.2.2.2.2.2.2.2.1 OSType.win32 (("64").toList),
    h.2.2.2.2.2.2.2.2.1 OSType.other (("x86-64").toList) (by decide),
    h.2.2.2.2.2.2.2.2.2.1 OSType.other (("cortex").toList) (by decide) (by decide)
      (by decide)⟩

/-- C8: `-O` codes `0`-`3` map to the four levels None, Less, Default,
Aggressive; any other supplied character makes the invocation exit with
code 1 before any pass executes and before any output artifact is
created. -/
theorem optlevel_parse_and_fail_before_output (c : DriverConfig)
    (hbad : c.optLevel ∉ ([' ', '0', '1', '2', '3'] : List Char)) :
    parseOptLevel '0' = some CodeGenLevel.None ∧
    parseOptLevel '1' = some CodeGenLevel.Less ∧
    parseOptLevel '2' = some CodeGenLevel.Default ∧
    parseOptLevel '3' = some CodeGenLevel.Aggressive ∧
    parseOptLevel c.optLevel = Option.none ∧
    (llc_main c).exitCode = 1 ∧
    DriverEvent.ranPasses ∉ (llc_main c).events ∧
    DriverEvent.openedOutput ∉ (llc_main c).events := by
  have hnone : parseOptLevel c.optLevel = Option.none := by
    simp only [List.mem_cons, List.not_mem_nil, or_false, not_or] at hbad
    unfold parseOptLevel
    split <;> simp_all
  have herr := llc_main_badOpt c hnone
  refine ⟨rfl, rfl, rfl, rfl, hnone, ?_, ?_, ?_⟩ <;> rw [herr] <;> simp

/-- C8 witness: the mapping and the `-O9` failure, evaluated concretely. -/
theorem optlevel_parse_and_fail_before_output_witness :
    parseOptLevel '0' = some CodeGenLevel.None ∧
    parseOptLevel '1' = some CodeGenLevel.Less ∧
    parseOptLevel '2' = some CodeGenLevel.Default ∧
    parseOptLevel '3' = some CodeGenLevel.Aggressive ∧
    parseOptLevel '9' = Option.none ∧
    (llc_main sampleBadOptConfig).exitCode = 1 ∧
    DriverEvent.ranPasses ∉ (llc_main sampleBadOptConfig).events ∧
    DriverEvent.openedOutput ∉ (llc_main sampleBadOptConfig).events :=
  optlevel_parse_and_fail_before_output sampleBadOptConfig (by decide)

/-- C10: with no `-mattr` toggles at all, the feature string passed to
target-machine construction is empty — the target's defaults are not
injected — in contrast to the nonempty case where the defaults come
first. -/
theorem empty_attrs_empty_features (dts mattrs : List FeatureToggle)
    (hne : mattrs ≠ []) :
    featuresFromAttrs dts [] = [] ∧
    resolveFeatures (featuresFromAttrs dts []) = [] ∧
    featuresFromAttrs dts mattrs = dts ++ mattrs :=
  ⟨rfl, rfl, featuresFromAttrs_of_ne dts mattrs hne⟩

/-- C10 witness: concrete default toggles are dropped when no `-mattr` was
given and kept when one was. -/
theorem empty_attrs_empty_features_witness :
    featuresFromAttrs [FeatureToggle.enable "mmx"] [] = [] ∧
    resolveFeatures (featuresFromAttrs [FeatureToggle.enable "mmx"] []) = [] ∧
    featuresFromAttrs [FeatureToggle.enable "mmx"] [FeatureToggle.enable "sse2"]
      = [FeatureToggle.enable "mmx"] ++ [FeatureToggle.enable "sse2"] :=
  empty_attrs_empty_features [FeatureToggle.enable "mmx"]
    [FeatureToggle.enable "sse2"] (by simp)

/-- C7: feature resolution is idempotent — a toggle repeated twice in the
`-mattr` list yields the same resolved TargetDescriptor as a single
occurrence. -/
theorem feature_resolution_idempotent (triple cpu : String) (lvl : CodeGenLevel)
    (dts pre post : List FeatureToggle) (t : FeatureToggle) :
    mkTargetDescriptor triple cpu dts (pre ++ t :: t :: post) lvl
      = mkTargetDescriptor triple cpu dts (pre ++ t :: post) lvl := by
  have h1 : pre ++ t :: t :: post ≠ [] := by cases pre <;> simp
  have h2 : pre ++ t :: post ≠ [] := by cases pre <;> simp
  unfold mkTargetDescriptor
  rw [featuresFromAttrs_of_ne _ _ h1, featuresFromAttrs_of_ne _ _ h2]
  have hres : resolveFeatures (dts ++ (pre ++ t :: t :: post))
      = resolveFeatures (dts ++ (pre ++ t :: post)) := by
    simp only [resolveFeatures, List.foldl_append, List.foldl_cons, applyToggle_idem]
  rw [hres]

/-- C6: with a nonempty `-mattr` list the toggle sequence handed to the
target machine is the defaults followed by the user toggles in order, and
the last toggle naming a feature decides its membership in the resolved
set — later flags override the defaults and earlier flags. -/
theorem features_defaults_then_user_override
    (dts mattrs : List FeatureToggle) (hne : mattrs ≠ []) :
    featuresFromAttrs dts mattrs = dts ++ mattrs ∧
    (∀ pre t post, dts ++ mattrs = pre ++ t :: post →
      (∀ u ∈ post, FeatureToggle.name u ≠ FeatureToggle.name t) →
      (FeatureToggle.name t ∈ resolveFeatures (featuresFromAttrs dts mattrs)
        ↔ FeatureToggle.isEnable t = true)) := by
  have hfa := featuresFromAttrs_of_ne dts mattrs hne
  refine ⟨hfa, ?_⟩
  intro pre t post hsplit hpost
  rw [hfa, hsplit, resolveFeatures, List.foldl_append, List.foldl_cons,
    mem_foldl_applyToggle_of_ne post _ _ hpost]
  cases t with
  | enable n =>
    exact iff_of_true (mem_applyToggle_enable _ n) rfl
  | disable n =>
    exact iff_of_false (not_mem_applyToggle_disable _ n) (by simp [FeatureToggle.isEnable])

/-- C6 witness: a user `-mattr` toggle overrides a default toggle of the
same feature. -/
theorem features_defaults_then_user_override_witness :
    featuresFromAttrs [FeatureToggle.enable "mmx"] [FeatureToggle.disable "mmx"]
        = [FeatureToggle.enable "mmx"] ++ [FeatureToggle.disable "mmx"] ∧
    (("mmx" : String)
        ∈ resolveFeatures (featuresFromAttrs [FeatureToggle.enable "mmx"]
            [FeatureToggle.disable "mmx"])
      ↔ FeatureToggle.isEnable (FeatureToggle.disable "mmx") = true) := by
  have h := features_defaults_then_user_override [FeatureToggle.enable "mmx"]
    [FeatureToggle.disable "mmx"] (by simp)
  exact ⟨h.1, h.2 [FeatureToggle.enable "mmx"] (FeatureToggle.disable "mmx") [] rfl
    (by simp)⟩

/-- C1: when streaming or memory reduction selects the per-function
strategy and the module is fully resident, its compiled-code output is
byte-identical to the whole-module strategy's output for the same module
and configuration. -/
theorem perFunction_output_matches_wholeModule
    (streaming rm : Bool) (P : PassSeq) (funcs : List Func)
    (hsel : streaming = true ∨ rm = true)
    (hres : ∀ f ∈ funcs, f.state = MatState.residentB) :
    runStrategy (selectStrategy streaming rm) P rm funcs
      = runStrategy Strategy.wholeModule P rm funcs := by
  have hstrat : selectStrategy streaming rm = Strategy.perFunction := by
    rcases hsel with h | h <;> simp [selectStrategy, h]
  rw [hstrat]
  show some (runPerFunction P rm funcs).out = runWholeModule P funcs
  rw [runWholeModule, bodiesOf_resident funcs hres]
  simp only [Option.map_some']
  rw [runPerFunction]
  simp only []
  rw [runUpTo_out, List.take_length, List.map_map]
  rfl

/-- C1 witness: the two strategies agree on a concrete resident module. -/
theorem perFunction_output_matches_wholeModule_witness :
    runStrategy (selectStrategy true false) samplePasses false sampleFuncs
      = runStrategy Strategy.wholeModule samplePasses false sampleFuncs :=
  perFunction_output_matches_wholeModule true false samplePasses sampleFuncs
    (Or.inl rfl) (by decide)

/-- C3: in memory-reduction mode, when function `k` is about to be
processed every earlier function is already dematerialized, function `k`
itself is still untouched, and compiling it appends the emission of its own
stored body — independent of the discarded bodies. -/
theorem reduceMemory_demat_before_next
    (P : PassSeq) (funcs : List Func) (k i : Nat) (f g : Func)
    (hik : i < k)
    (hi : (runUpTo P true funcs k).funcs[i]? = some f)
    (hk : funcs[k]? = some g) :
    f.state = MatState.dematB ∧
    (runUpTo P true funcs k).funcs[k]? = some g ∧
    (runStep P true (runUpTo P true funcs k) k).out
      = (runUpTo P true funcs k).out ++ P.emit g.body := by
  obtain ⟨hklen, hgk⟩ := List.getElem?_eq_some.mp hk
  have hilen : i < funcs.length := Nat.lt_trans hik hklen
  have hlenpre : ((funcs.take k).map (stepFunc true)).length = k := by
    simp [Nat.min_eq_left (Nat.le_of_lt hklen)]
  have hgetk : (runUpTo P true funcs k).funcs[k]? = some g := by
    rw [runUpTo_funcs, List.getElem?_append_right (le_of_eq hlenpre), hlenpre,
      Nat.sub_self, List.getElem?_drop, Nat.add_zero, hk]
  refine ⟨?_, hgetk, ?_⟩
  · rw [runUpTo_funcs, List.getElem?_append_left (by rw [hlenpre]; exact hik),
      List.getElem?_map, List.getElem?_take] at hi
    rw [if_pos hik, List.getElem?_eq_getElem hilen] at hi
    simp only [Option.map_some'] at hi
    have hfi : stepFunc true funcs[i] = f := Option.some.inj hi
    rw [← hfi]
    simp [stepFunc, dematerialize, materialize]
  · simp only [runStep, hgetk]
    simp [materialize]

/-- C3 witness: concrete trace over a two-function module with memory
reduction on. -/
theorem reduceMemory_demat_before_next_witness :
    (Func.mk 3 MatState.dematB).state = MatState.dematB ∧
    (runUpTo samplePasses true sampleFuncs 1).funcs[1]?
      = some (Func.mk 4 MatState.residentB) ∧
    (runStep samplePasses true (runUpTo samplePasses true sampleFuncs 1) 1).out
      = (runUpTo samplePasses true sampleFuncs 1).out
        ++ samplePasses.emit (Func.mk 4 MatState.residentB).body :=
  reduceMemory_demat_before_next samplePasses sampleFuncs 1 0
    (Func.mk 3 MatState.dematB) (Func.mk 4 MatState.residentB)
    (by decide) (by decide) (by decide)

/-- C2 counterexample: when the metadata file fails to open after a
successful compilation, the invocation exits with code 1 yet the
compiled-code artifact has already been committed, so failure is not
all-or-nothing as claimed. -/
theorem commit_atomicity_counterexample :
    (llc_main sampleMetaFailConfig).exitCode = 1 ∧
    (llc_main sampleMetaFailConfig).codeCommitted = true := by
  exact ⟨rfl, rfl⟩

/-- C2 (amended): an invocation either fully succeeds (exit 0, compiled
code committed, metadata committed exactly when requested) or exits with
code 1 with the metadata artifact uncommitted; in the failing case the
compiled-code artifact can only be left committed when the failure was the
metadata write, which runs after the compiled-code commit; on a fatal error
such as TargetNotFound no output file is created or committed. -/
theorem invocation_commit_discipline (c : DriverConfig) :
    (c.targetFound = false → llc_main c = ⟨1, false, false, [], [], []⟩) ∧
    (((llc_main c).exitCode = 0 ∧ (llc_main c).codeCommitted = true ∧
        ((llc_main c).metadataCommitted = true ↔ c.metadataTextFilename.isEmpty = false))
      ∨ ((llc_main c).exitCode = 1 ∧ (llc_main c).metadataCommitted = false ∧
          ((llc_main c).codeCommitted = true →
            c.metadataTextFilename.isEmpty = false ∧ c.metadataOpens = false))) := by
  refine ⟨llc_main_noTarget c, ?_⟩
  rcases llc_main_shape c with h | ⟨he, hc, hm, _⟩ | ⟨he, hc, hm, _, _, hemp⟩
    | ⟨he, hc, hm, _, _, hemp, hop⟩ | ⟨he, hc, hm, _, _, hemp, hop⟩
  · right
    rw [h]
    exact ⟨rfl, rfl, fun hcc => Bool.noConfusion hcc⟩
  · right
    refine ⟨he, hm, fun hcc => ?_⟩
    rw [hc] at hcc
    exact Bool.noConfusion hcc
  · left
    refine ⟨he, hc, ?_⟩
    rw [hm, hemp]
    simp
  · right
    exact ⟨he, hm, fun _ => ⟨hemp, hop⟩⟩
  · left
    refine ⟨he, hc, ?_⟩
    rw [hm, hemp]
    simp

/-- C2 (amended) witness: on a TargetNotFound invocation nothing is
created or committed and the exit code is 1. -/
theorem invocation_commit_discipline_witness :
    llc_main sampleNoTargetConfig = ⟨1, false, false, [], [], []⟩ :=
  (invocation_commit_discipline sampleNoTargetConfig).1 rfl

/-- C5: on a fully successful invocation that requests a metadata artifact,
the event order is output commit, then intrinsic-prototype insertion, then
the metadata write; the metadata lines render the stub records — one per
externally visible declaration, then one per library dependency, in
discovery order; and the metadata write never happens in a run whose
compiled-code output was not committed. -/
theorem metadata_written_after_commit (c : DriverConfig)
    (h1 : c.moduleParses = true) (h2 : c.targetFound = true)
    (lvl : CodeGenLevel) (h3 : parseOptLevel c.optLevel = some lvl)
    (h4 : c.outputOpens = true) (h5 : c.startAfterOk = true) (h6 : c.stopAfterOk = true)
    (h7 : c.targetSupportsFileType = true) (h8 : c.metadataTextFilename.isEmpty = false)
    (h9 : c.metadataOpens = true) :
    (llc_main c).events
      = [DriverEvent.openedOutput, DriverEvent.ranPasses, DriverEvent.keptOutput,
         DriverEvent.addedPrototypes, DriverEvent.wroteMetadata, DriverEvent.keptMetadata] ∧
    (llc_main c).metadataLines
      = (MakeAllStubs (AddPrototypes c.moduleDecls c.neededPrototypes) c.libDeps).map
          WriteTextELFStub ∧
    MakeAllStubs (AddPrototypes c.moduleDecls c.neededPrototypes) c.libDeps
      = ((AddPrototypes c.moduleDecls c.neededPrototypes).filter
          (fun d => d.externallyVisible)).map (fun d => StubRecord.symbol d.declName)
        ++ c.libDeps.map StubRecord.libDep ∧
    (∀ cAny : DriverConfig, DriverEvent.keptOutput ∉ (llc_main cAny).events →
      DriverEvent.wroteMetadata ∉ (llc_main cAny).events) := by
  refine ⟨?_, ?_, rfl, ?_⟩
  · simp [llc_main, h1, h2, h3, h4, h5, h6, h7, h8, h9, WriteTextMetadataFile]
  · simp [llc_main, h1, h2, h3, h4, h5, h6, h7, h8, h9, WriteTextMetadataFile]
  · intro cAny hko
    rcases llc_main_shape cAny with h | ⟨_, _, _, hev⟩ | ⟨_, _, _, hev, _, _⟩
      | ⟨_, _, _, hev, _, _, _⟩ | ⟨_, _, _, hev, _, _, _⟩
    · simp [h]
    · rw [hev]
      simp
    · rw [hev]
      simp
    · rw [hev]
      simp
    · rw [hev] at hko
      simp at hko

/-- C5 witness: the successful metadata invocation evaluated concretely. -/
theorem metadata_written_after_commit_witness :
    (llc_main sampleOkConfig).events
      = [DriverEvent.openedOutput, DriverEvent.ranPasses, DriverEvent.keptOutput,
         DriverEvent.addedPrototypes, DriverEvent.wroteMetadata, DriverEvent.keptMetadata] ∧
    (llc_main sampleOkConfig).metadataLines
      = (MakeAllStubs (AddPrototypes sampleOkConfig.moduleDecls
          sampleOkConfig.neededPrototypes) sampleOkConfig.libDeps).map WriteTextELFStub := by
  have h := metadata_written_after_commit sampleOkConfig rfl rfl CodeGenLevel.Default rfl
    rfl rfl rfl rfl rfl rfl
  exact ⟨h.1, h.2.1⟩

/-- C9: the assembled pipeline starts with the TargetLibraryInfo stage
carrying the disable-simplify-libcalls flag, then TargetTransformInfo, then
a data layout taken from the target machine when it has one and the module
otherwise, then the backend stages; and when the target declines the
requested output file kind the invocation exits with code 1 before any
pass executes. -/
theorem pipeline_order_and_unsupported_kind
    (d hTD : Bool) (bs : List Nat)
    (cbad : DriverConfig) (hns : cbad.targetSupportsFileType = false)
    (c : DriverConfig)
    (g1 : c.moduleParses = true) (g2 : c.targetFound = true)
    (lvl : CodeGenLevel) (g3 : parseOptLevel c.optLevel = some lvl)
    (g4 : c.outputOpens = true) (g5 : c.startAfterOk = true) (g6 : c.stopAfterOk = true)
    (g7 : c.targetSupportsFileType = true) :
    buildPipeline d hTD bs
      = Stage.targetLibraryInfo d :: Stage.targetTransformInfo ::
        Stage.dataLayout
          (if hTD then DataLayoutSource.fromTargetMachine else DataLayoutSource.fromModule)
          :: bs.map Stage.backend ∧
    (hTD = true →
      buildPipeline d hTD bs
        = Stage.targetLibraryInfo d :: Stage.targetTransformInfo ::
          Stage.dataLayout DataLayoutSource.fromTargetMachine :: bs.map Stage.backend) ∧
    (hTD = false →
      buildPipeline d hTD bs
        = Stage.targetLibraryInfo d :: Stage.targetTransformInfo ::
          Stage.dataLayout DataLayoutSource.fromModule :: bs.map Stage.backend) ∧
    (llc_main c).pipeline
      = buildPipeline c.disableSimplifyLibCalls c.targetHasDataLayout c.backendStages ∧
    (llc_main cbad).exitCode = 1 ∧
    DriverEvent.ranPasses ∉ (llc_main cbad).events := by
  have hbad : (llc_main cbad).exitCode = 1 ∧
      DriverEvent.ranPasses ∉ (llc_main cbad).events := by
    rcases llc_main_shape cbad with h | ⟨he, _, _, hev⟩ | ⟨_, _, _, _, hsup, _⟩
      | ⟨_, _, _, _, hsup, _, _⟩ | ⟨_, _, _, _, hsup, _, _⟩
    · rw [h]
      exact ⟨rfl, by simp⟩
    · rw [hev]
      exact ⟨he, by simp⟩
    · rw [hsup] at hns
      exact Bool.noConfusion hns
    · rw [hsup] at hns
      exact Bool.noConfusion hns
    · rw [hsup] at hns
      exact Bool.noConfusion hns
  refine ⟨rfl, ?_, ?_, ?_, hbad.1, hbad.2⟩
  · intro h
    simp [buildPipeline, h]
  · intro h
    simp [buildPipeline, h]
  · by_cases h8 : c.metadataTextFilename.isEmpty
    · simp [llc_main, g1, g2, g3, g4, g5, g6, g7, h8]
    · by_cases h9 : c.metadataOpens
      · simp [llc_main, WriteTextMetadataFile, g1, g2, g3, g4, g5, g6, g7, h8, h9]
      · simp [llc_main, WriteTextMetadataFile, g1, g2, g3, g4, g5, g6, g7, h8, h9]

/-- C9 witness: pipeline structure and the declined-kind failure, evaluated
concretely. -/
theorem pipeline_order_and_unsupported_kind_witness :
    buildPipeline true false [5]
      = Stage.targetLibraryInfo true :: Stage.targetTransformInfo ::
        Stage.dataLayout DataLayoutSource.fromModule :: ([5] : List Nat).map Stage.backend ∧
    (llc_main sampleOkConfig).pipeline
      = buildPipeline sampleOkConfig.disableSimplifyLibCalls
          sampleOkConfig.targetHasDataLayout sampleOkConfig.backendStages ∧
    (llc_main sampleNoSupportConfig).exitCode = 1 ∧
    DriverEvent.ranPasses ∉ (llc_main sampleNoSupportConfig).events := by
  have h := pipeline_order_and_unsupported_kind true false [5] sampleNoSupportConfig rfl
    sampleOkConfig rfl rfl CodeGenLevel.Default rfl rfl rfl rfl rfl
  exact ⟨h.1, h.2.2.2.1, h.2.2.2.2.1, h.2.2.2.2.2⟩
